import Mathlib

/-!
Verification development for a sign-in-code retrieval bot
(single source file: otp_bot.py).

The Python source is shallowly embedded:

* the regular-expression list OTP_PATTERNS and the findall calls on each
  message text are implemented directly as scanners over List Char;
* the sqlite tables (accounts, approved_users, user_email_access) become
  association lists, and each data-access function becomes a pure Lean
  function with the same branching structure;
* the IMAP / POP3 sessions become records of operations that either yield
  a value or raise (Except String), so the try/except structure of the
  two fetch functions is explicit state passing; the Bool component of a
  fetch result records whether logout()/quit() was reached;
* CPython writes list(set(codes)) whose iteration order is unspecified;
  pySetList fixes first-occurrence order, and the theorems below only rely
  on order-independent consequences (membership, nodup, length) except
  where a doc comment says otherwise.
-/

set_option autoImplicit false

namespace OtpBot

/-- ASCII digit, modelling the regex class d in the patterns. -/
def isDigitCh (c : Char) : Bool := c.isDigit

/-- Word character for the regex word-boundary b: letters, digits, underscore
(ASCII approximation of the Python re word class). -/
def isWordChar (c : Char) : Bool := c.isAlphanum || c == '_'

/-- Separator class of the patterns, i.e. one char of the regex set
containing a colon or whitespace (space, tab, newline, carriage return,
vertical tab, form feed). -/
def sepChar (c : Char) : Bool :=
  c == ':' || c == ' ' || c == '\t' || c == '\n' || c == '\r' ||
  c == '\x0b' || c == '\x0c'

/-- One match attempt of the first pattern of OTP_PATTERNS at the current
position: a bare run of exactly six digits bracketed by word boundaries.
The Bool argument says whether the previous character (or start of text)
makes the left word boundary possible, i.e. is absent or not a word
character; the right boundary needs the next character to be absent or not
a word character.  Returns the matched text and the remainder. -/
def bareTry (prevOk : Bool) : List Char → Option (String × List Char)
  | a :: b :: c :: d :: e :: f :: rest =>
    if prevOk && a.isDigit && b.isDigit && c.isDigit && d.isDigit &&
        e.isDigit && f.isDigit &&
        (match rest with | [] => true | g :: _ => !isWordChar g) then
      some (String.mk [a, b, c, d, e, f], rest)
    else none
  | _ => none

/-- Fuel-indexed findall for the bare six-digit pattern: at each position
try a match; on success emit it and resume after the matched digits (whose
last character is a digit, hence a word character, so the next left
boundary needs the false flag), else advance one character.  Every step
consumes at least one character, so fuel equal to the text length (as
supplied by findall_bare) never runs out. -/
def findall_bareF : Nat → Bool → List Char → List String
  | 0, _, _ => []
  | _, _, [] => []
  | fuel + 1, prevOk, a :: rest =>
    match bareTry prevOk (a :: rest) with
    | some (s, rest') => s :: findall_bareF fuel false rest'
    | none => findall_bareF fuel (!isWordChar a) rest

/-- findall for the first pattern of OTP_PATTERNS. -/
def findall_bare (prevOk : Bool) (cs : List Char) : List String :=
  findall_bareF cs.length prevOk cs

/-- Case-insensitive literal keyword match: consumes the keyword (given in
lowercase) from the front of the text, returning the remainder. -/
def matchKeyCI : List Char → List Char → Option (List Char)
  | [], cs => some cs
  | _ :: _, [] => none
  | k :: ks, c :: cs => if c.toLower == k then matchKeyCI ks cs else none

/-- Exactly six digits at the front of the text: the captured group of the
two contextual patterns.  Returns the capture and the remainder. -/
def digits6 : List Char → Option (String × List Char)
  | a :: b :: c :: d :: e :: f :: rest =>
    if a.isDigit && b.isDigit && c.isDigit && d.isDigit && e.isDigit &&
        f.isDigit then
      some (String.mk [a, b, c, d, e, f], rest)
    else none
  | _ => none

/-- One-or-more separator characters (greedy), as in the contextual
patterns.  Since a separator is never a digit, the greedy munch never needs
to backtrack before the digit group. -/
def seps1 : List Char → Option (List Char)
  | [] => none
  | c :: cs => if sepChar c then some (cs.dropWhile sepChar) else none

/-- Attempt one contextual-pattern match (keyword, separators, six captured
digits) at the current position. -/
def tryCtx (key : List Char) (cs : List Char) : Option (String × List Char) :=
  match matchKeyCI key cs with
  | none => none
  | some r1 =>
    match seps1 r1 with
    | none => none
    | some r2 => digits6 r2

/-- Fuel-indexed findall for a contextual pattern: at each position try a
match; on success emit the captured digits and resume after the match, else
advance one character.  Every step consumes at least one character, so fuel
equal to the text length (as supplied by findall_ctx) never runs out. -/
def findall_ctxF (key : List Char) : Nat → List Char → List String
  | 0, _ => []
  | _, [] => []
  | fuel + 1, c :: cs =>
    match tryCtx key (c :: cs) with
    | some (s, rest) => s :: findall_ctxF key fuel rest
    | none => findall_ctxF key fuel cs

/-- findall for a contextual pattern (keyword, then separators, then a
captured six-digit group), e.g. the second and third entries of
OTP_PATTERNS. -/
def findall_ctx (key : List Char) (cs : List Char) : List String :=
  findall_ctxF key cs.length cs

/-- The ordered pattern list of the source: a bare six-digit run first, then
the code-anchored pattern, then the otp-anchored pattern (both
case-insensitive with a captured six-digit group). -/
def OTP_PATTERNS : List (List Char → List String) :=
  [findall_bare true,
   findall_ctx ['c', 'o', 'd', 'e'],
   findall_ctx ['o', 't', 'p']]

/-- The per-text harvesting loop of the fetch functions: for pat in
OTP_PATTERNS, append every findall match. -/
def otpFindAll (t : List Char) : List String :=
  OTP_PATTERNS.foldl (fun codes pat => codes ++ pat t) []

example : otpFindAll "111111 code: 222222 ".toList =
    ["111111", "222222", "222222"] := by decide

example : otpFindAll "your code: 1234".toList = [] := by decide

example : otpFindAll "code: 482913".toList = ["482913", "482913"] := by decide

/-- Auxiliary scan for pySetList: keeps an element unless already seen. -/
def pySetAux : List String → List String → List String
  | _, [] => []
  | seen, x :: xs =>
    if x ∈ seen then pySetAux seen xs else x :: pySetAux (x :: seen) xs

/-- Model of the Python expression list(set(codes)).  CPython leaves the
iteration order of a set unspecified, so this model fixes it as
first-occurrence order; theorems relying on it say so in their doc
comments, and the refutations below depend only on membership. -/
def pySetList (l : List String) : List String := pySetAux [] l

/-- Model of the Python slice l[-k:]: the whole list when k = 0, else the
last k elements (all of them when k exceeds the length). -/
def pySliceLast {α : Type} (l : List α) (k : Nat) : List α :=
  if k = 0 then l else l.drop (l.length - k)

/-- An ephemeral mail message, holding the already-decoded subject and the
body selected by the multipart-flattening code of the fetch functions. -/
structure Msg where
  subject : String
  body : String
  deriving DecidableEq

/-- The text the patterns are run over: body, a space, then subject. -/
def msgText (m : Msg) : List Char := (m.body ++ " " ++ m.subject).toList

/-- All pattern matches over a list of messages, in scan order: the
accumulation performed by the message loop of the fetch functions. -/
def codesOfMsgs : List Msg → List String
  | [] => []
  | m :: ms => otpFindAll (msgText m) ++ codesOfMsgs ms

/-- An open IMAP session: each operation either yields a value or raises
(Except.error carries the exception text).  Message identifiers are the
server ordinals, oldest first, as returned by the full-mailbox search. -/
structure ImapConn where
  login : Except String Unit
  selectInbox : Except String Unit
  searchAll : Except String (List Nat)
  fetchMsg : Nat → Except String Msg

/-- An IMAP host: constructing the SSL connection may itself raise. -/
structure ImapHost where
  connect : Except String ImapConn

/-- An open POP3 session: user/pass may raise, listing yields the mailbox
size, retr fetches one message by 1-based ordinal (oldest first). -/
structure Pop3Conn where
  user : Except String Unit
  pass : Except String Unit
  listMsgs : Except String Nat
  retr : Nat → Except String Msg

/-- A POP3 host: constructing the SSL connection may itself raise. -/
structure Pop3Host where
  connect : Except String Pop3Conn

/-- The error reply built by the except handlers of both fetch functions:
a single-element list holding the decorated exception text (the prefix
reproduces the literal bytes of the source file). -/
def mailErrorList (e : String) : List String :=
  ["âš ï¸ Mail error: " ++ e]

/-- The iteration order of the IMAP message loop: the last maxCheck
identifiers of the search result, reversed. -/
def imapVisitOrder (ids : List Nat) (maxCheck : Nat) : List Nat :=
  (pySliceLast ids maxCheck).reverse

/-- The iteration order of the POP3 message loop: ordinals start+1 .. n in
ascending order, where start = max(0, n - maxCheck). -/
def pop3VisitOrder (n maxCheck : Nat) : List Nat :=
  List.range' (n - maxCheck + 1) (n - (n - maxCheck))

/-- The message loop shared by both fetch functions: visit each identifier,
fetch the message, and append every pattern match of its text; the first
raising fetch aborts the loop, discarding the codes collected so far. -/
def collectCodes (fetch : Nat → Except String Msg) :
    List Nat → Except String (List String)
  | [] => .ok []
  | i :: is =>
    match fetch i with
    | .error e => .error e
    | .ok m =>
      match collectCodes fetch is with
      | .error e => .error e
      | .ok rest => .ok (otpFindAll (msgText m) ++ rest)

/-- fetch_signin_codes_imap: connect, login, select, search, loop over the
last maxCheck identifiers newest-first, then logout; any raise is caught
and turned into the single-element error list.  The Bool records whether
logout() was reached: it is inside the try block, after the loop, so any
raising step skips it. -/
def fetch_signin_codes_imap (host : ImapHost) (maxCheck : Nat) :
    List String × Bool :=
  match host.connect with
  | .error e => (mailErrorList e, false)
  | .ok conn =>
    match conn.login with
    | .error e => (mailErrorList e, false)
    | .ok _ =>
      match conn.selectInbox with
      | .error e => (mailErrorList e, false)
      | .ok _ =>
        match conn.searchAll with
        | .error e => (mailErrorList e, false)
        | .ok ids =>
          match collectCodes conn.fetchMsg (imapVisitOrder ids maxCheck) with
          | .error e => (mailErrorList e, false)
          | .ok codes => ((pySetList codes).take 5, true)

/-- fetch_signin_codes_pop3: connect, user, pass, read mailbox size, loop
over ordinals start+1 .. n in ascending order, then quit; any raise is
caught and turned into the single-element error list.  The Bool records
whether quit() was reached. -/
def fetch_signin_codes_pop3 (host : Pop3Host) (maxCheck : Nat) :
    List String × Bool :=
  match host.connect with
  | .error e => (mailErrorList e, false)
  | .ok conn =>
    match conn.user with
    | .error e => (mailErrorList e, false)
    | .ok _ =>
      match conn.pass with
      | .error e => (mailErrorList e, false)
      | .ok _ =>
        match conn.listMsgs with
        | .error e => (mailErrorList e, false)
        | .ok n =>
          match collectCodes conn.retr (pop3VisitOrder n maxCheck) with
          | .error e => (mailErrorList e, false)
          | .ok codes => ((pySetList codes).take 5, true)

/-- A mailbox account row (source dataclass Account). -/
structure Account where
  email : String
  password : String
  protocol : String
  server : String
  port : Int
  deriving DecidableEq

/-- Python str.lower, character by character (the protocol strings are
ASCII). -/
def strLower (s : String) : String := String.mk (s.data.map Char.toLower)

/-- fetch_signin_codes: protocol dispatch on the stored string — the IMAP
path exactly when protocol lowercases to the string imap, every other
value (pop3 or anything else) taking the POP3 path.  The hosts stand for
the network reachable at acc.server and acc.port. -/
def fetch_signin_codes (acc : Account) (ih : ImapHost) (ph : Pop3Host)
    (maxCheck : Nat) : List String × Bool :=
  if strLower acc.protocol == "imap" then fetch_signin_codes_imap ih maxCheck
  else fetch_signin_codes_pop3 ph maxCheck

/-- Serving message number i (1-based, oldest first) out of a fixed message
list; raises when the ordinal is out of range. -/
def msgFetch (msgs : List Msg) (i : Nat) : Except String Msg :=
  match msgs[i - 1]? with
  | some m => .ok m
  | none => .error "no such message"

/-- An in-order host serving the given messages (oldest first) over IMAP:
every session operation succeeds, the search returns ordinals 1 .. n, and
fetching ordinal i yields message i. -/
def mkImapHost (msgs : List Msg) : ImapHost :=
  ⟨.ok ⟨.ok (), .ok (), .ok (List.range' 1 msgs.length), msgFetch msgs⟩⟩

/-- Like mkImapHost but every individual message fetch raises, modelling a
server that fails while a message is being downloaded. -/
def mkImapFetchFail (msgs : List Msg) : ImapHost :=
  ⟨.ok ⟨.ok (), .ok (), .ok (List.range' 1 msgs.length),
    fun _ => .error "fetch failed"⟩⟩

/-- An in-order host serving the given messages (oldest first) over POP3. -/
def mkPop3Host (msgs : List Msg) : Pop3Host :=
  ⟨.ok ⟨.ok (), .ok (), .ok msgs.length, msgFetch msgs⟩⟩

/-- Like mkPop3Host but every individual message retrieval raises. -/
def mkPop3RetrFail (msgs : List Msg) : Pop3Host :=
  ⟨.ok ⟨.ok (), .ok (), .ok msgs.length, fun _ => .error "fetch failed"⟩⟩

/-- is_admin: the requester id equals the configured ADMIN_ID. -/
def is_admin (ADMIN_ID uid : Int) : Bool := uid == ADMIN_ID

/-- is_approved: true for the admin, else membership in the approved_users
table. -/
def is_approved (ADMIN_ID : Int) (approved : List Int) (uid : Int) : Bool :=
  is_admin ADMIN_ID uid || approved.contains uid

/-- One row of the user_email_access table: user id, email, expires_at. -/
abbrev GrantRow := Int × String × Int

/-- The sqlite lookup of user_email_access by its composite primary key. -/
def grantLookup (l : List GrantRow) (uid : Int) (e : String) : Option Int :=
  (l.find? (fun r => r.1 == uid && r.2.1 == e)).map (fun r => r.2.2)

/-- grant_email_access: computes expires_at = now + days * 86400 and
performs INSERT OR REPLACE on the composite key (user_id, email). -/
def grant_email_access (l : List GrantRow) (uid : Int) (e : String)
    (days : Int) (now : Int) : List GrantRow :=
  let expiresAt := now + days * 86400
  if l.any (fun r => r.1 == uid && r.2.1 == e) then
    l.map (fun r => if r.1 == uid && r.2.1 == e then (uid, e, expiresAt) else r)
  else
    l ++ [(uid, e, expiresAt)]

/-- check_email_access: true for the admin without consulting any table;
otherwise true iff a user_email_access row exists for the pair and the
current time is strictly below its expires_at. -/
def check_email_access (ADMIN_ID : Int) (l : List GrantRow) (uid : Int)
    (e : String) (now : Int) : Bool :=
  if is_admin ADMIN_ID uid then true
  else
    match grantLookup l uid e with
    | none => false
    | some expiresAt => now < expiresAt

/-- upsert_account: INSERT with ON CONFLICT(email) DO UPDATE of every other
column — replace the row with the same email if present, else append.  No
field is validated. -/
def upsert_account (l : List Account) (acc : Account) : List Account :=
  if l.any (fun a => a.email == acc.email) then
    l.map (fun a => if a.email == acc.email then acc else a)
  else
    l ++ [acc]

/-- get_account: the row whose email key matches, if any. -/
def get_account (l : List Account) (e : String) : Option Account :=
  l.find? (fun a => a.email == e)

/-- The three persisted tables. -/
structure DB where
  accounts : List Account
  approved : List Int
  grants : List GrantRow
  deriving DecidableEq

/-- The replies cmd_getcode can send (one constructor per reply site of the
handler; codes carries the list joined under the latest-codes banner). -/
inductive Reply where
  | notApproved
  | notAllowed
  | emailNotFound
  | noOtpFound
  | codes (l : List String)
  deriving DecidableEq

/-- cmd_getcode for an already-parsed request: approval gate, then access
gate, then account lookup, then fetch; an empty code list is reported as
no-OTP-found, a non-empty one is rendered as the latest codes.  The handler
performs no store mutation, so the DB is returned unchanged on every
path. -/
def cmd_getcode (ADMIN_ID : Int) (db : DB) (uid : Int) (emailAddr : String)
    (now : Int) (ih : ImapHost) (ph : Pop3Host) (maxCheck : Nat) :
    Reply × DB :=
  if !is_approved ADMIN_ID db.approved uid then (.notApproved, db)
  else if !check_email_access ADMIN_ID db.grants uid emailAddr now then
    (.notAllowed, db)
  else
    match get_account db.accounts emailAddr with
    | none => (.emailNotFound, db)
    | some acc =>
      let codes := (fetch_signin_codes acc ih ph maxCheck).1
      if codes.isEmpty then (.noOtpFound, db) else (.codes codes, db)

theorem mem_pySetAux {a : String} :
    ∀ {l seen : List String}, a ∈ pySetAux seen l ↔ (a ∈ l ∧ a ∉ seen) := by
  intro l
  induction l with
  | nil => intro seen; simp [pySetAux]
  | cons x xs ih =>
    intro seen
    simp only [pySetAux]
    split
    next hx =>
      rw [ih]
      by_cases hax : a = x
      · subst hax; simp [hx]
      · simp [hax]
    next hx =>
      by_cases hax : a = x
      · subst hax; simp [hx, ih]
      · simp [List.mem_cons, hax, ih]

theorem mem_pySetList {a : String} {l : List String} :
    a ∈ pySetList l ↔ a ∈ l := by
  simp [pySetList, mem_pySetAux]

theorem nodup_pySetAux : ∀ (l seen : List String), (pySetAux seen l).Nodup := by
  intro l
  induction l with
  | nil => intro seen; simp [pySetAux]
  | cons x xs ih =>
    intro seen
    simp only [pySetAux]
    split
    · exact ih seen
    · refine List.nodup_cons.mpr ⟨fun hmem => ?_, ih (x :: seen)⟩
      rw [mem_pySetAux] at hmem
      exact hmem.2 (List.mem_cons_self x seen)

theorem nodup_pySetList (l : List String) : (pySetList l).Nodup :=
  nodup_pySetAux l []

theorem find?_map_replace_self {α : Type} (p : α → Bool) (v : α)
    (hpv : p v = true) :
    ∀ l : List α, l.any p = true →
      (l.map (fun r => if p r then v else r)).find? p = some v := by
  intro l
  induction l with
  | nil => simp
  | cons r rs ih =>
    intro hany
    by_cases hr : p r = true
    · simp [hr, hpv]
    · rw [List.any_cons] at hany
      simp only [hr, Bool.false_or] at hany
      simp [hr, ih hany]

theorem find?_map_replace_of_ne {α : Type} (p q : α → Bool) (v : α)
    (hqv : q v = false) (hpq : ∀ r, p r = true → q r = false) :
    ∀ l : List α,
      (l.map (fun r => if p r then v else r)).find? q = l.find? q := by
  intro l
  induction l with
  | nil => simp
  | cons r rs ih =>
    by_cases hr : p r = true
    · have hqr : q r = false := hpq r hr
      simp [hr, hqv, hqr, ih]
    · by_cases hq : q r = true
      · simp [hr, hq]
      · simp only [Bool.not_eq_true] at hq
        simp [hr, hq, ih]

theorem any_eq_false_find?_none {α : Type} (p : α → Bool) (l : List α)
    (h : l.any p = false) : l.find? p = none :=
  List.find?_eq_none.mpr (List.any_eq_false.mp h)

theorem grantKeyNe (uid uid' : Int) (e e' : String) (exp : Int)
    (h : ¬(uid' = uid ∧ e' = e)) :
    (((uid, e, exp) : GrantRow).1 == uid' &&
      ((uid, e, exp) : GrantRow).2.1 == e') = false := by
  cases h1 : (((uid, e, exp) : GrantRow).1 == uid') with
  | false => simp [h1]
  | true =>
    have h1e : uid = uid' := beq_iff_eq.mp h1
    have h2 : e ≠ e' := fun he => h ⟨h1e.symm, he.symm⟩
    have h2b : ((((uid, e, exp) : GrantRow)).2.1 == e') = false :=
      beq_eq_false_iff_ne.mpr h2
    simp [h1, h2b]

theorem grantLookup_grant_self (l : List GrantRow) (uid : Int) (e : String)
    (days now : Int) :
    grantLookup (grant_email_access l uid e days now) uid e =
      some (now + days * 86400) := by
  simp only [grant_email_access, grantLookup]
  by_cases h : l.any (fun r => r.1 == uid && r.2.1 == e)
  · rw [if_pos h,
      find?_map_replace_self (fun r => r.1 == uid && r.2.1 == e)
        ((uid, e, now + days * 86400) : GrantRow) (by simp) l h]
    rfl
  · rw [if_neg h, List.find?_append,
      any_eq_false_find?_none _ l (Bool.eq_false_iff.mpr h)]
    simp

theorem grantLookup_grant_other (l : List GrantRow) (uid uid' : Int)
    (e e' : String) (days now : Int) (h : ¬(uid' = uid ∧ e' = e)) :
    grantLookup (grant_email_access l uid e days now) uid' e' =
      grantLookup l uid' e' := by
  have hqv := grantKeyNe uid uid' e e' (now + days * 86400) h
  have hpq : ∀ r : GrantRow, (r.1 == uid && r.2.1 == e) = true →
      (r.1 == uid' && r.2.1 == e') = false := by
    intro r hr
    rw [Bool.and_eq_true] at hr
    have h1 : r.1 = uid := beq_iff_eq.mp hr.1
    have h2 : r.2.1 = e := beq_iff_eq.mp hr.2
    have := grantKeyNe uid uid' e e' r.2.2 h
    simpa [h1, h2] using this
  simp only [grant_email_access, grantLookup]
  by_cases hany : l.any (fun r => r.1 == uid && r.2.1 == e)
  · rw [if_pos hany,
      find?_map_replace_of_ne (fun r => r.1 == uid && r.2.1 == e)
        (fun r => r.1 == uid' && r.2.1 == e')
        ((uid, e, now + days * 86400) : GrantRow) hqv hpq l]
  · rw [if_neg hany, List.find?_append]
    simp [hqv]

theorem get_upsert (l : List Account) (acc : Account) (e : String) :
    get_account (upsert_account l acc) e =
      if e = acc.email then some acc else get_account l e := by
  simp only [upsert_account, get_account]
  by_cases he : e = acc.email
  · subst he
    by_cases hany : l.any (fun a => a.email == acc.email)
    · rw [if_pos hany, if_pos rfl,
        find?_map_replace_self (fun a => a.email == acc.email) acc
          (by simp) l hany]
    · rw [if_neg hany, if_pos rfl, List.find?_append,
        any_eq_false_find?_none _ l (Bool.eq_false_iff.mpr hany)]
      simp
  · have hqv : (acc.email == e) = false :=
      beq_eq_false_iff_ne.mpr (fun hh => he hh.symm)
    have hpq : ∀ a : Account, (a.email == acc.email) = true →
        (a.email == e) = false := by
      intro a ha
      rw [beq_iff_eq.mp ha]
      exact hqv
    by_cases hany : l.any (fun a => a.email == acc.email)
    · rw [if_pos hany, if_neg he,
        find?_map_replace_of_ne (fun a => a.email == acc.email)
          (fun a => a.email == e) acc hqv hpq l]
    · rw [if_neg hany, if_neg he, List.find?_append]
      simp [hqv]

theorem collect_aligned (msgs : List Msg) :
    ∀ (ids : List Nat) (sel : List Msg),
      ids.map (fun i => msgs[i - 1]?) = sel.map some →
      collectCodes (msgFetch msgs) ids = .ok (codesOfMsgs sel) := by
  intro ids
  induction ids with
  | nil =>
    intro sel h
    cases sel with
    | nil => simp [collectCodes, codesOfMsgs]
    | cons m ms => simp at h
  | cons i is ih =>
    intro sel h
    cases sel with
    | nil => simp at h
    | cons m ms =>
      simp only [List.map_cons, List.cons.injEq] at h
      obtain ⟨h1, h2⟩ := h
      simp [collectCodes, msgFetch, h1, ih ms h2, codesOfMsgs]

theorem drop_range'_eq (s n d : Nat) (h : d ≤ n) :
    (List.range' s n).drop d = List.range' (s + d) (n - d) := by
  conv_lhs =>
    rw [show n = (n - d) + d by omega, ← List.range'_append_1 s d (n - d)]
  exact List.drop_left' (by simp)

theorem map_getElem?_range'_aux (msgs : List Msg) :
    ∀ (c d : Nat), msgs.length - d = c →
      (List.range' (d + 1) c).map (fun i => msgs[i - 1]?) =
        (msgs.drop d).map some := by
  intro c
  induction c with
  | zero =>
    intro d h
    rw [List.drop_eq_nil_of_le (by omega)]
    simp
  | succ c ih =>
    intro d h
    have hd : d < msgs.length := by omega
    rw [List.range'_succ, List.map_cons,
      List.drop_eq_getElem_cons hd, List.map_cons]
    congr 1
    · simp [List.getElem?_eq_getElem hd]
    · have := ih (d + 1) (by omega)
      simpa using this

theorem pySliceLast_align (msgs : List Msg) (k : Nat) :
    (pySliceLast (List.range' 1 msgs.length) k).map (fun i => msgs[i - 1]?) =
      (pySliceLast msgs k).map some := by
  unfold pySliceLast
  by_cases hk : k = 0
  · rw [if_pos hk, if_pos hk]
    have := map_getElem?_range'_aux msgs msgs.length 0 (by omega)
    simpa using this
  · rw [if_neg hk, if_neg hk, List.length_range',
      drop_range'_eq 1 msgs.length (msgs.length - k) (by omega)]
    have := map_getElem?_range'_aux msgs (msgs.length - (msgs.length - k))
      (msgs.length - k) (by omega)
    simpa [Nat.add_comm] using this

theorem collect_imap (msgs : List Msg) (k : Nat) :
    collectCodes (msgFetch msgs)
        (imapVisitOrder (List.range' 1 msgs.length) k) =
      .ok (codesOfMsgs ((pySliceLast msgs k).reverse)) := by
  apply collect_aligned
  unfold imapVisitOrder
  rw [List.map_reverse, List.map_reverse, pySliceLast_align]

theorem collect_pop3 (msgs : List Msg) (k : Nat) :
    collectCodes (msgFetch msgs) (pop3VisitOrder msgs.length k) =
      .ok (codesOfMsgs (msgs.drop (msgs.length - k))) := by
  apply collect_aligned
  unfold pop3VisitOrder
  have := map_getElem?_range'_aux msgs (msgs.length - (msgs.length - k))
    (msgs.length - k) (by omega)
  simpa [Nat.add_comm] using this

theorem imap_mk_eq (msgs : List Msg) (k : Nat) :
    fetch_signin_codes_imap (mkImapHost msgs) k =
      ((pySetList (codesOfMsgs ((pySliceLast msgs k).reverse))).take 5,
        true) := by
  simp only [fetch_signin_codes_imap, mkImapHost]
  rw [collect_imap]

theorem pop3_mk_eq (msgs : List Msg) (k : Nat) :
    fetch_signin_codes_pop3 (mkPop3Host msgs) k =
      ((pySetList (codesOfMsgs (msgs.drop (msgs.length - k)))).take 5,
        true) := by
  simp only [fetch_signin_codes_pop3, mkPop3Host]
  rw [collect_pop3]

theorem collect_fail (ids : List Nat) (h : ids ≠ []) :
    collectCodes (fun _ => (.error "fetch failed" : Except String Msg)) ids =
      .error "fetch failed" := by
  cases ids with
  | nil => exact absurd rfl h
  | cons i is => simp [collectCodes]

theorem imapVisitOrder_ne_nil (n k : Nat) (hn : n ≠ 0) :
    imapVisitOrder (List.range' 1 n) k ≠ [] := by
  unfold imapVisitOrder pySliceLast
  by_cases hk : k = 0
  · rw [if_pos hk]
    simp [hn]
  · rw [if_neg hk]
    intro hnil
    have := congrArg List.length hnil
    simp [List.length_drop] at this
    omega

theorem pop3VisitOrder_ne_nil (n k : Nat) (hn : n ≠ 0) (hk : k ≠ 0) :
    pop3VisitOrder n k ≠ [] := by
  unfold pop3VisitOrder
  intro hnil
  have := congrArg List.length hnil
  simp at this
  omega

theorem imap_fetch_fail (msgs : List Msg) (k : Nat) (h : msgs ≠ []) :
    fetch_signin_codes_imap (mkImapFetchFail msgs) k =
      (mailErrorList "fetch failed", false) := by
  simp only [fetch_signin_codes_imap, mkImapFetchFail]
  rw [collect_fail _ (imapVisitOrder_ne_nil msgs.length k
    (fun hh => h (List.length_eq_zero.mp hh)))]

theorem pop3_retr_fail (msgs : List Msg) (k : Nat) (h : msgs ≠ [])
    (hk : k ≠ 0) :
    fetch_signin_codes_pop3 (mkPop3RetrFail msgs) k =
      (mailErrorList "fetch failed", false) := by
  simp only [fetch_signin_codes_pop3, mkPop3RetrFail]
  rw [collect_fail _ (pop3VisitOrder_ne_nil msgs.length k
    (fun hh => h (List.length_eq_zero.mp hh)) hk)]

theorem digits6_shape (cs : List Char) (s : String) (rest : List Char)
    (h : digits6 cs = some (s, rest)) :
    s.length = 6 ∧ s.data.all Char.isDigit = true := by
  unfold digits6 at h
  split at h
  next a b c d e f rest' =>
    split at h
    next hc =>
      simp only [Option.some.injEq, Prod.mk.injEq] at h
      obtain ⟨h1, _⟩ := h
      subst h1
      simp only [Bool.and_eq_true] at hc
      obtain ⟨⟨⟨⟨⟨ha, hb⟩, hcc⟩, hd⟩, he⟩, hf⟩ := hc
      exact ⟨rfl, by simp [ha, hb, hcc, hd, he, hf]⟩
    next => exact absurd h (by simp)
  next => exact absurd h (by simp)

theorem bareTry_shape (p : Bool) (cs : List Char) (s : String)
    (rest : List Char) (h : bareTry p cs = some (s, rest)) :
    s.length = 6 ∧ s.data.all Char.isDigit = true := by
  unfold bareTry at h
  split at h
  next a b c d e f rest' =>
    split at h
    next hc =>
      simp only [Option.some.injEq, Prod.mk.injEq] at h
      obtain ⟨h1, _⟩ := h
      subst h1
      simp only [Bool.and_eq_true] at hc
      obtain ⟨⟨⟨⟨⟨⟨⟨_, ha⟩, hb⟩, hcc⟩, hd⟩, he⟩, hf⟩, _⟩ := hc
      exact ⟨rfl, by simp [ha, hb, hcc, hd, he, hf]⟩
    next => exact absurd h (by simp)
  next => exact absurd h (by simp)

theorem tryCtx_shape (key : List Char) (cs : List Char) (s : String)
    (rest : List Char) (h : tryCtx key cs = some (s, rest)) :
    s.length = 6 ∧ s.data.all Char.isDigit = true := by
  unfold tryCtx at h
  split at h
  next => exact absurd h (by simp)
  next r1 _ =>
    split at h
    next => exact absurd h (by simp)
    next r2 _ => exact digits6_shape r2 s rest h

theorem findall_bareF_shape :
    ∀ (fuel : Nat) (p : Bool) (cs : List Char) (s : String),
      s ∈ findall_bareF fuel p cs →
      s.length = 6 ∧ s.data.all Char.isDigit = true := by
  intro fuel
  induction fuel with
  | zero => intro p cs s hs; simp [findall_bareF] at hs
  | succ fuel ih =>
    intro p cs s hs
    cases cs with
    | nil => simp [findall_bareF] at hs
    | cons a rest =>
      rw [findall_bareF] at hs
      split at hs
      next s' rest' heq =>
        rcases List.mem_cons.mp hs with rfl | hmem
        · exact bareTry_shape p (a :: rest) s rest' heq
        · exact ih false rest' s hmem
      next => exact ih (!isWordChar a) rest s hs

theorem findall_ctxF_shape (key : List Char) :
    ∀ (fuel : Nat) (cs : List Char) (s : String),
      s ∈ findall_ctxF key fuel cs →
      s.length = 6 ∧ s.data.all Char.isDigit = true := by
  intro fuel
  induction fuel with
  | zero => intro cs s hs; simp [findall_ctxF] at hs
  | succ fuel ih =>
    intro cs s hs
    cases cs with
    | nil => simp [findall_ctxF] at hs
    | cons c cs' =>
      rw [findall_ctxF] at hs
      split at hs
      next s' rest heq =>
        rcases List.mem_cons.mp hs with rfl | hmem
        · exact tryCtx_shape key (c :: cs') s rest heq
        · exact ih rest s hmem
      next => exact ih cs' s hs

theorem otpFindAll_eq (t : List Char) :
    otpFindAll t =
      findall_bare true t ++ findall_ctx ['c', 'o', 'd', 'e'] t ++
        findall_ctx ['o', 't', 'p'] t := rfl

theorem otpFindAll_shape (t : List Char) (s : String)
    (hs : s ∈ otpFindAll t) :
    s.length = 6 ∧ s.data.all Char.isDigit = true := by
  rw [otpFindAll_eq] at hs
  rcases List.mem_append.mp hs with hs' | hs'
  · rcases List.mem_append.mp hs' with hb | hc
    · exact findall_bareF_shape t.length true t s hb
    · exact findall_ctxF_shape ['c', 'o', 'd', 'e'] t.length t s hc
  · exact findall_ctxF_shape ['o', 't', 'p'] t.length t s hs'

theorem mem_codesOfMsgs (s : String) :
    ∀ ms : List Msg,
      s ∈ codesOfMsgs ms ↔ ∃ m, m ∈ ms ∧ s ∈ otpFindAll (msgText m) := by
  intro ms
  induction ms with
  | nil => simp [codesOfMsgs]
  | cons m ms ih => simp [codesOfMsgs, ih, List.mem_append]

/-- C1 counterexample: a requester who is not the admin and has no row in
the approval table, but holds an unexpired grant row for the mailbox,
passes check_email_access — the function never consults the approval
table, so the claim that it returns false for every unapproved non-admin
regardless of grant rows is false on the code. -/
theorem c1_counterexample :
    is_admin 1 2 = false ∧ is_approved 1 [] 2 = false ∧
    check_email_access 1 [(2, "m@x.com", 100)] 2 "m@x.com" 50 = true := by
  decide

/-- C1 (amended): check_email_access alone does not consult the approval
table: for a non-admin requester it is true iff an unexpired grant row
exists for the pair.  The approval requirement lives one level up: the
cmd_getcode handler first requires is_approved, so an unapproved non-admin
receives the not-approved reply, no retrieval happens and the stores are
untouched, whatever grant rows exist. -/
theorem c1_amended (ADMIN_ID : Int) (db : DB) (uid : Int) (e : String)
    (now : Int) (ih : ImapHost) (ph : Pop3Host) (maxCheck : Nat)
    (hadm : is_admin ADMIN_ID uid = false)
    (hnap : db.approved.contains uid = false) :
    cmd_getcode ADMIN_ID db uid e now ih ph maxCheck =
      (Reply.notApproved, db) ∧
    ∀ grants : List GrantRow,
      (check_email_access ADMIN_ID grants uid e now = true ↔
        ∃ exp, grantLookup grants uid e = some exp ∧ now < exp) := by
  constructor
  · have happ : is_approved ADMIN_ID db.approved uid = false := by
      unfold is_approved
      rw [hadm, hnap]
      rfl
    simp [cmd_getcode, happ]
  · intro grants
    unfold check_email_access
    rw [hadm]
    cases heq : grantLookup grants uid e with
    | none => simp [heq]
    | some exp => simp [heq]

/-- C1 witness for the amended theorem: a concrete unapproved non-admin
request is answered with the not-approved reply and an unchanged store. -/
theorem c1_witness :
    cmd_getcode 1 ⟨[], [], [(3, "m@x.com", 100)]⟩ 3 "m@x.com" 50
      (mkImapHost []) (mkPop3Host []) 20 =
      (Reply.notApproved, ⟨[], [], [(3, "m@x.com", 100)]⟩) :=
  (c1_amended 1 ⟨[], [], [(3, "m@x.com", 100)]⟩ 3 "m@x.com" 50
    (mkImapHost []) (mkPop3Host []) 20 (by decide) (by decide)).1

/-- C2: the admin identity passes both access checks for every mailbox and
every state of the approval and grant tables, including when both are
empty: is_approved and check_email_access short-circuit on is_admin before
touching any table. -/
theorem c2_admin_bypass (ADMIN_ID : Int) (approved : List Int)
    (grants : List GrantRow) (m : String) (now : Int) :
    is_approved ADMIN_ID approved ADMIN_ID = true ∧
    check_email_access ADMIN_ID grants ADMIN_ID m now = true := by
  unfold is_approved check_email_access is_admin
  simp

/-- C3: after grant(r, m, days = 7) at time t, the grant row for the pair
holds expires_at = t + 7 days exactly (re-granting overwrites, no
accumulation, other pairs untouched), and check_email_access for the
approved non-admin pair is true at every instant strictly before
t + 7 days and false at t + 7 days + 1 second. -/
theorem c3_grant_expiry (ADMIN_ID : Int) (approved : List Int)
    (grants : List GrantRow) (uid : Int) (e : String) (t t' : Int)
    (happr : is_approved ADMIN_ID approved uid = true)
    (hadm : is_admin ADMIN_ID uid = false) :
    (t' < t + 7 * 86400 →
      check_email_access ADMIN_ID (grant_email_access grants uid e 7 t)
        uid e t' = true) ∧
    check_email_access ADMIN_ID (grant_email_access grants uid e 7 t)
      uid e (t + 7 * 86400 + 1) = false ∧
    grantLookup (grant_email_access grants uid e 7 t) uid e =
      some (t + 7 * 86400) ∧
    (∀ (uid' : Int) (e' : String), ¬(uid' = uid ∧ e' = e) →
      grantLookup (grant_email_access grants uid e 7 t) uid' e' =
        grantLookup grants uid' e') := by
  have hself := grantLookup_grant_self grants uid e 7 t
  refine ⟨?_, ?_, hself, ?_⟩
  · intro ht'
    unfold check_email_access
    rw [hadm, hself]
    simpa using ht'
  · unfold check_email_access
    rw [hadm, hself]
    simp
  · intro uid' e' hne
    exact grantLookup_grant_other grants uid uid' e e' 7 t hne

/-- C3 witness: user 2, approved, granted at time 0 for 7 days: access
holds one second before expiry, fails one second after, the stored row is
exactly 604800, and an unrelated pair is unaffected. -/
theorem c3_witness :
    (604799 < (0 : Int) + 7 * 86400 →
      check_email_access 1 (grant_email_access [] 2 "m@x.com" 7 0)
        2 "m@x.com" 604799 = true) ∧
    check_email_access 1 (grant_email_access [] 2 "m@x.com" 7 0)
      2 "m@x.com" ((0 : Int) + 7 * 86400 + 1) = false ∧
    grantLookup (grant_email_access [] 2 "m@x.com" 7 0) 2 "m@x.com" =
      some ((0 : Int) + 7 * 86400) ∧
    (∀ (uid' : Int) (e' : String), ¬(uid' = 2 ∧ e' = "m@x.com") →
      grantLookup (grant_email_access [] 2 "m@x.com" 7 0) uid' e' =
        grantLookup [] uid' e') :=
  c3_grant_expiry 1 [2] [] 2 "m@x.com" 0 604799 (by decide) (by decide)

/-- C9 counterexample: upsert_account performs no validation: an account
with port 0 (not positive) and protocol smtp (outside the allowed set) is
stored as-is, and get_account returns it — there is no ValidationError
path and the store does change. -/
theorem c9_counterexample :
    get_account (upsert_account [] ⟨"x@y.com", "pw", "smtp", "h", 0⟩)
      "x@y.com" = some ⟨"x@y.com", "pw", "smtp", "h", 0⟩ := by
  decide

/-- C9 (amended): upsert_account validates nothing and never fails: for
every account, valid or not, it inserts or fully replaces the row keyed by
the account address (last-write-wins) and leaves every other row
unchanged. -/
theorem c9_amended (l : List Account) (acc : Account) (e : String) :
    get_account (upsert_account l acc) e =
      if e = acc.email then some acc else get_account l e :=
  get_upsert l acc e

/-- C4 counterexample: when the IMAP connect raises (credentials rejected),
the except handler returns a one-element list holding the decorated
exception text, and cmd_getcode — seeing a non-empty list — renders it
through the same codes reply used for found codes.  There is no typed
error result distinguishable from a found code; the stores are unchanged.
-/
theorem c4_counterexample :
    cmd_getcode 1
      ⟨[⟨"x@y.com", "pw", "imap", "h", 993⟩], [2], [(2, "x@y.com", 1000)]⟩
      2 "x@y.com" 50 ⟨.error "bad credentials"⟩ (mkPop3Host []) 20 =
      (Reply.codes (mailErrorList "bad credentials"),
        ⟨[⟨"x@y.com", "pw", "imap", "h", 993⟩], [2],
          [(2, "x@y.com", 1000)]⟩) := by
  decide

/-- C4 (amended): a failed connect is caught (the handler returns normally,
so the process keeps serving) and surfaced as the decorated exception text
inside the code list, which cmd_getcode renders via the found-codes reply
rather than a typed error; no accounts, approvals or grants row is mutated
(the returned store equals the input store). -/
theorem c4_amended (ADMIN_ID : Int) (db : DB) (uid : Int) (e : String)
    (now : Int) (acc : Account) (err : String) (ph : Pop3Host)
    (maxCheck : Nat)
    (happr : is_approved ADMIN_ID db.approved uid = true)
    (hacc : check_email_access ADMIN_ID db.grants uid e now = true)
    (hget : get_account db.accounts e = some acc)
    (hproto : strLower acc.protocol = "imap") :
    cmd_getcode ADMIN_ID db uid e now ⟨.error err⟩ ph maxCheck =
      (Reply.codes (mailErrorList err), db) := by
  unfold cmd_getcode
  rw [happr, hacc, hget]
  simp [fetch_signin_codes, hproto, fetch_signin_codes_imap, mailErrorList]

/-- C4 witness: a concrete approved, granted request against a host that
rejects the credentials yields the error text under the codes reply with
the store unchanged. -/
theorem c4_witness :
    cmd_getcode 7
      ⟨[⟨"a@b.com", "pw", "IMAP", "mail.b.com", 993⟩], [5],
        [(5, "a@b.com", 900)]⟩
      5 "a@b.com" 100 ⟨.error "login denied"⟩ (mkPop3Host []) 20 =
      (Reply.codes (mailErrorList "login denied"),
        ⟨[⟨"a@b.com", "pw", "IMAP", "mail.b.com", 993⟩], [5],
          [(5, "a@b.com", 900)]⟩) :=
  c4_amended 7
    ⟨[⟨"a@b.com", "pw", "IMAP", "mail.b.com", 993⟩], [5],
      [(5, "a@b.com", 900)]⟩
    5 "a@b.com" 100 ⟨"a@b.com", "pw", "IMAP", "mail.b.com", 993⟩
    "login denied" (mkPop3Host []) 20 (by decide) (by decide) (by decide)
    (by decide)

/-- C5 counterexample: in the text 111111 code: 222222 the code-anchored
pattern matches only 222222, while the bare-digit pattern — which is first
in OTP_PATTERNS, not last — matches the earlier run 111111; all findall
matches of all patterns are accumulated, so 111111 is among the returned
codes (membership is independent of the set iteration order), refuting
that the contextual match alone is the returned code. -/
theorem c5_counterexample :
    "111111" ∈
      (fetch_signin_codes_imap
        (mkImapHost [⟨"", "111111 code: 222222"⟩]) 20).1 := by
  decide

/-- C5 (amended): the bare six-digit pattern is the first entry of
OTP_PATTERNS and the keyword-anchored patterns come after it; there is no
first-match-wins cut: every match of the bare pattern and every match of
the code-anchored pattern is carried into the accumulated code list, and
on the text 111111 code: 222222 the fetch returns both runs (listed here
in the first-occurrence order fixed by the pySetList model). -/
theorem c5_amended :
    (∀ (t : List Char) (s : String),
      s ∈ findall_ctx ['c', 'o', 'd', 'e'] t → s ∈ otpFindAll t) ∧
    (∀ (t : List Char) (s : String),
      s ∈ findall_bare true t → s ∈ otpFindAll t) ∧
    (fetch_signin_codes_imap (mkImapHost [⟨"", "111111 code: 222222"⟩])
      20).1 = ["111111", "222222"] := by
  refine ⟨?_, ?_, by decide⟩
  · intro t s hs
    rw [otpFindAll_eq]
    exact List.mem_append.mpr
      (Or.inl (List.mem_append.mpr (Or.inr hs)))
  · intro t s hs
    rw [otpFindAll_eq]
    exact List.mem_append.mpr
      (Or.inl (List.mem_append.mpr (Or.inl hs)))

/-- C5 witness: the contextual match of the counterexample text is indeed
carried into the accumulated matches. -/
theorem c5_witness :
    "222222" ∈ otpFindAll "111111 code: 222222 ".toList :=
  c5_amended.1 "111111 code: 222222 ".toList "222222" (by decide)

/-- C6 counterexample: the extractor is hardcoded to six digits, so a
four-digit code in a clear contextual position is never extracted — there
is no codeLength parameter to set to 4, refuting codeLength = 4 support;
the year text yields none as well, but only because it contains no
six-digit run, not through any year-rejection filter (none exists in the
code). -/
theorem c6_counterexample :
    otpFindAll "your code: 1234".toList = [] ∧
    otpFindAll "© 2024 Service".toList = [] := by
  decide

/-- C6 (amended): every candidate the extractor can produce is a string of
exactly six digits — the patterns hardcode the length, there is no
codeLength parameter and no year-rejection filter — hence four-digit
candidates, year-shaped or not, are never produced, and the text
© 2024 Service yields no code trivially. -/
theorem c6_amended :
    (∀ (t : List Char) (s : String), s ∈ otpFindAll t →
      s.length = 6 ∧ s.data.all Char.isDigit = true) ∧
    otpFindAll "© 2024 Service".toList = [] := by
  exact ⟨fun t s hs => otpFindAll_shape t s hs, by decide⟩

/-- C6 witness: the six-digit shape at a concrete extracted candidate. -/
theorem c6_witness :
    ("482913" : String).length = 6 ∧
    ("482913" : String).data.all Char.isDigit = true :=
  c6_amended.1 "code: 482913".toList "482913" (by decide)

/-- C7 counterexample: with five stored messages (server ordinals 1..5,
ordinal 5 the most recent) and limit 3, the POP3 loop visits ordinals
3, 4, 5 in ascending — oldest-first — order, and the codes of the fetch
come out oldest-first as well, refuting strictly newest-first for the POP3
variant; the IMAP loop does visit 5, 4, 3.  (The code-list conjunct uses
the first-occurrence order fixed by the pySetList model; the visit-order
conjuncts are independent of it.) -/
theorem c7_counterexample :
    pop3VisitOrder 5 3 = [3, 4, 5] ∧
    imapVisitOrder (List.range' 1 5) 3 = [5, 4, 3] ∧
    (fetch_signin_codes_pop3
      (mkPop3Host [⟨"", "code: 111111"⟩, ⟨"", "code: 222222"⟩,
        ⟨"", "code: 333333"⟩, ⟨"", "code: 444444"⟩,
        ⟨"", "code: 555555"⟩]) 3).1 = ["333333", "444444", "555555"] := by
  decide

/-- C7 (amended): for a positive limit both variants select exactly the
min(limit, n) most recent of the n stored messages — every selected
ordinal exceeds every unselected one — but the IMAP variant visits them
newest-first while the POP3 variant visits the very same ordinals
oldest-first (strictly ascending, the exact reverse of the IMAP order). -/
theorem c7_amended (n k : Nat) (hk : 0 < k) :
    (pop3VisitOrder n k).length = min k n ∧
    imapVisitOrder (List.range' 1 n) k = (pop3VisitOrder n k).reverse ∧
    List.Pairwise (· < ·) (pop3VisitOrder n k) ∧
    (∀ i, i ∈ pop3VisitOrder n k ↔ (n - k < i ∧ i ≤ n)) := by
  refine ⟨?_, ?_, ?_, ?_⟩
  · unfold pop3VisitOrder
    rw [List.length_range']
    omega
  · unfold imapVisitOrder pop3VisitOrder pySliceLast
    rw [if_neg (by omega), List.length_range',
      drop_range'_eq 1 n (n - k) (by omega)]
    rw [show 1 + (n - k) = n - k + 1 by omega]
  · exact List.pairwise_lt_range' (n - k + 1) (n - (n - k))
  · intro i
    unfold pop3VisitOrder
    rw [List.mem_range'_1]
    omega

/-- C7 witness: the amended selection and ordering facts at five messages
and limit three. -/
theorem c7_witness :
    (pop3VisitOrder 5 3).length = min 3 5 ∧
    imapVisitOrder (List.range' 1 5) 3 = (pop3VisitOrder 5 3).reverse ∧
    List.Pairwise (· < ·) (pop3VisitOrder 5 3) ∧
    (∀ i, i ∈ pop3VisitOrder 5 3 ↔ (5 - 3 < i ∧ i ≤ 5)) :=
  c7_amended 5 3 (by decide)

/-- C8 counterexample: connect, login, select and search all succeed, but
the fetch of the one listed message raises; the except handler returns the
error list without ever reaching logout(), so the session is not released
on this exit path — logout sits inside the try block with no finally. -/
theorem c8_counterexample :
    (fetch_signin_codes_imap (mkImapFetchFail [⟨"s", "b"⟩]) 20).2 =
      false := by
  decide

/-- C8 (amended): the session is released only on the fully successful
path: when every operation succeeds both variants reach logout()/quit(),
but when a message fetch raises, the except handler returns without
releasing the session, for both the IMAP and the POP3 variant. -/
theorem c8_amended (msgs : List Msg) (k : Nat) (hne : msgs ≠ [])
    (hk : k ≠ 0) :
    (fetch_signin_codes_imap (mkImapHost msgs) k).2 = true ∧
    (fetch_signin_codes_pop3 (mkPop3Host msgs) k).2 = true ∧
    (fetch_signin_codes_imap (mkImapFetchFail msgs) k).2 = false ∧
    (fetch_signin_codes_pop3 (mkPop3RetrFail msgs) k).2 = false := by
  refine ⟨?_, ?_, ?_, ?_⟩
  · rw [imap_mk_eq]
  · rw [pop3_mk_eq]
  · rw [imap_fetch_fail msgs k hne]
  · rw [pop3_retr_fail msgs k hne hk]

/-- C8 witness: one stored message, limit 20: both success paths release
the session, both fetch-failure paths leak it. -/
theorem c8_witness :
    (fetch_signin_codes_imap (mkImapHost [⟨"s", "b"⟩]) 20).2 = true ∧
    (fetch_signin_codes_pop3 (mkPop3Host [⟨"s", "b"⟩]) 20).2 = true ∧
    (fetch_signin_codes_imap (mkImapFetchFail [⟨"s", "b"⟩]) 20).2 = false ∧
    (fetch_signin_codes_pop3 (mkPop3RetrFail [⟨"s", "b"⟩]) 20).2 = false :=
  c8_amended [⟨"s", "b"⟩] 20 (by decide) (by decide)

/-- C10: on a successful fetch both variants return a duplicate-free list
of at most five code strings; every returned code is a pattern match of
some scanned message; when the distinct matches number at most five, every
match across all scanned messages is returned (aggregation, not a single
first-accepted code); and the protocol dispatch sends every account whose
protocol does not lowercase to imap — including invalid protocol strings —
to the POP3 fetch path. -/
theorem c10_fetch_contract (msgs : List Msg) (k : Nat) :
    (fetch_signin_codes_imap (mkImapHost msgs) k).1.Nodup ∧
    (fetch_signin_codes_imap (mkImapHost msgs) k).1.length ≤ 5 ∧
    (fetch_signin_codes_pop3 (mkPop3Host msgs) k).1.Nodup ∧
    (fetch_signin_codes_pop3 (mkPop3Host msgs) k).1.length ≤ 5 ∧
    (∀ s ∈ (fetch_signin_codes_imap (mkImapHost msgs) k).1,
      ∃ m, m ∈ msgs ∧ s ∈ otpFindAll (msgText m)) ∧
    (∀ s ∈ (fetch_signin_codes_pop3 (mkPop3Host msgs) k).1,
      ∃ m, m ∈ msgs ∧ s ∈ otpFindAll (msgText m)) ∧
    ((pySetList (codesOfMsgs ((pySliceLast msgs k).reverse))).length ≤ 5 →
      ∀ s, s ∈ codesOfMsgs ((pySliceLast msgs k).reverse) →
        s ∈ (fetch_signin_codes_imap (mkImapHost msgs) k).1) ∧
    ((pySetList (codesOfMsgs (msgs.drop (msgs.length - k)))).length ≤ 5 →
      ∀ s, s ∈ codesOfMsgs (msgs.drop (msgs.length - k)) →
        s ∈ (fetch_signin_codes_pop3 (mkPop3Host msgs) k).1) ∧
    (∀ (acc : Account) (ih : ImapHost) (ph : Pop3Host) (mc : Nat),
      strLower acc.protocol ≠ "imap" →
      fetch_signin_codes acc ih ph mc = fetch_signin_codes_pop3 ph mc) := by
  rw [imap_mk_eq, pop3_mk_eq]
  refine ⟨?_, ?_, ?_, ?_, ?_, ?_, ?_, ?_, ?_⟩
  · exact List.Nodup.sublist (List.take_sublist 5 _) (nodup_pySetList _)
  · rw [List.length_take]
    omega
  · exact List.Nodup.sublist (List.take_sublist 5 _) (nodup_pySetList _)
  · rw [List.length_take]
    omega
  · intro s hs
    have hs1 : s ∈ pySetList (codesOfMsgs ((pySliceLast msgs k).reverse)) :=
      List.take_subset 5 _ hs
    have hs2 := mem_pySetList.mp hs1
    obtain ⟨m, hm, hsm⟩ := (mem_codesOfMsgs s _).mp hs2
    refine ⟨m, ?_, hsm⟩
    have hm' := List.mem_reverse.mp hm
    unfold pySliceLast at hm'
    split at hm'
    · exact hm'
    · exact List.drop_subset _ _ hm'
  · intro s hs
    have hs1 : s ∈ pySetList (codesOfMsgs (msgs.drop (msgs.length - k))) :=
      List.take_subset 5 _ hs
    have hs2 := mem_pySetList.mp hs1
    obtain ⟨m, hm, hsm⟩ := (mem_codesOfMsgs s _).mp hs2
    exact ⟨m, List.drop_subset _ _ hm, hsm⟩
  · intro hlen s hsmem
    rw [List.take_of_length_le hlen]
    exact mem_pySetList.mpr hsmem
  · intro hlen s hsmem
    rw [List.take_of_length_le hlen]
    exact mem_pySetList.mpr hsmem
  · intro acc ih ph mc hp
    unfold fetch_signin_codes
    rw [if_neg (by simpa using hp)]

/-- C10 witness: with one four-code mailbox over POP3 the aggregation
implication is dischargeable: a code of the oldest scanned message is in
the returned list, not only the first-accepted one of the newest. -/
theorem c10_witness :
    "111111" ∈
      (fetch_signin_codes_pop3
        (mkPop3Host [⟨"", "code: 111111"⟩, ⟨"", "code: 222222"⟩]) 20).1 :=
  ((c10_fetch_contract [⟨"", "code: 111111"⟩, ⟨"", "code: 222222"⟩]
    20).2.2.2.2.2.2.2.1) (by decide) "111111" (by decide)

end OtpBot
